import Mathlib

/-!
Verification of `src/main.c`, a minimal `print`-command interpreter.

The embedding models character buffers as `List Char`.  A C string is the
list of characters before the first NUL byte.  `interpret` (main.c lines
7-27) is modelled as a pure function from the raw input buffer to the pair
of texts written to standard output and standard error; `main`
(lines 29-75) is modelled as a function from an environment describing the
command line and the file-system responses to a record holding the exit
code, both output streams, and the acquisition/release state of the file
handle and the heap buffer.
-/

namespace CInterp

/-- `MAX_CODE_SIZE` from main.c line 5. -/
def MAX_CODE_SIZE : Nat := 1000

/-- The NUL character `'\0'`, the C string terminator. -/
def nulChar : Char := Char.ofNat 0

/-- main.c line 8: the strtok delimiter set `" \t\n"`. -/
def isDelim (c : Char) : Bool := c == ' ' || c == '\t' || c == '\n'

/-- Reading a buffer as a C string: the characters strictly before the
first NUL byte.  This is what any `str*` function sees of a buffer. -/
def cstr (buf : List Char) : List Char := buf.takeWhile (fun c => c != nulChar)

/-- main.c line 11: the contents of `dest` after `strncpy(dest, src, n)`
where `src` is the (NUL-free) C string of the source buffer: the first
`n` characters of `src`, padded with NUL bytes up to length `n` when
`src` is shorter than `n` (when `src.length ≥ n`, no terminator is
written by `strncpy` itself). -/
def strncpyBuf (src : List Char) (n : Nat) : List Char :=
  src.take n ++ List.replicate (n - src.length) nulChar

/-- main.c lines 10-12: the 1000-byte array `code_copy` after
`strncpy(code_copy, code, 1000)` and `code_copy[999] = '\0'`. -/
def codeCopyArray (code : List Char) : List Char :=
  (strncpyBuf (cstr code) MAX_CODE_SIZE).set (MAX_CODE_SIZE - 1) nulChar

/-- The effective text scanned by the strtok loop: the C string of
`code_copy`, i.e. the input's C string truncated to 999 characters.
(`codeCopy_reads_as_workingCopy` below proves this equals
`cstr (codeCopyArray code)`.) -/
def workingCopy (code : List Char) : List Char :=
  (cstr code).take (MAX_CODE_SIZE - 1)

/-- The token sequence produced by repeated `strtok(·, " \t\n")` calls on
a NUL-free character list: the maximal non-empty runs of non-delimiter
characters, in order.  `acc` holds the (reversed) characters of the token
currently being scanned. -/
def tokenizeAux : List Char → List Char → List (List Char)
  | [], acc => if acc.isEmpty then [] else [acc.reverse]
  | c :: cs, acc =>
    if isDelim c then
      if acc.isEmpty then tokenizeAux cs []
      else acc.reverse :: tokenizeAux cs []
    else tokenizeAux cs (c :: acc)

/-- All tokens of a buffer, as delivered one by one by the strtok loop of
main.c lines 14-26. -/
def tokenize (s : List Char) : List (List Char) := tokenizeAux s []

/-- The keyword recognised at main.c line 16: `"print"`. -/
def printTok : List Char := "print".toList

/-- main.c line 19: the standard-output text of one successful print
command, `printf("Printed: %s\n", token)`. -/
def printedLine (arg : List Char) : List Char :=
  "Printed: ".toList ++ arg ++ ['\n']

/-- main.c line 21: the standard-error text
`"Error: Missing argument for print\n"`. -/
def missingArgMsg : List Char := "Error: Missing argument for print\n".toList

/-- The strtok loop of main.c lines 14-26, acting on the token sequence:
a non-`print` token is skipped (line 25); a `print` token consumes the
next token and prints it (lines 17-19), or, when no token follows,
reports the missing argument on standard error, after which the next
`strtok` call still yields no token and the loop ends (lines 21, 25).
Returns the pair (standard output, standard error). -/
def interpTokens : List (List Char) → List Char × List Char
  | [] => ([], [])
  | [t] => if t = printTok then ([], missingArgMsg) else ([], [])
  | t :: arg :: rest =>
    if t = printTok then
      (printedLine arg ++ (interpTokens rest).1, (interpTokens rest).2)
    else interpTokens (arg :: rest)

/-- `interpret` from main.c lines 7-27: build the bounded working copy of
the input buffer and run the strtok loop on its tokens; the result is the
pair (standard output, standard error). -/
def interpret (code : List Char) : List Char × List Char :=
  interpTokens (tokenize (workingCopy code))

/-- main.c line 31: the usage message. -/
def usageMsg : List Char := "Usage: ./interpreter <filename>\n".toList

/-- main.c line 39: the open-failure message for a given file name. -/
def openFailMsg (filename : List Char) : List Char :=
  "Failed to open the file '".toList ++ filename ++ "'\n".toList

/-- main.c line 51: the allocation-failure message. -/
def allocFailMsg : List Char := "Memory allocation error\n".toList

/-- main.c line 58: the read-failure message for a given file name. -/
def readFailMsg (filename : List Char) : List Char :=
  "Failed to read the file '".toList ++ filename ++ "'\n".toList

/-- The environment of one run of the program: the command-line argument
count (`argc`, including the program name), the file name, whether
`fopen` succeeds, whether `malloc` succeeds, the size measured by
`fseek`/`ftell`, the number of bytes `fread` returns, and the bytes it
stores into the buffer. -/
structure Env where
  argc : Nat
  filename : List Char
  openOk : Bool
  allocOk : Bool
  size : Nat
  bytesRead : Nat
  content : List Char

/-- The observable outcome of one run of the program: exit code, the two
output streams, and whether the file handle and the heap buffer were
acquired and released. -/
structure MainResult where
  exitCode : Nat
  stdout : List Char
  stderr : List Char
  fileOpened : Bool
  fileClosed : Bool
  bufAllocated : Bool
  bufFreed : Bool
deriving DecidableEq, Repr

/-- `main` from main.c lines 29-75.  Argument-count check (lines 30-33),
`fopen` (lines 37-41), `malloc` (lines 49-54), `fread` with the
short-read check (lines 57-62), NUL termination of the loaded buffer at
offset `size` (line 65), `interpret` (line 68), release of the buffer and
the file handle (lines 71-72), exit code 0 (line 74). -/
def main (e : Env) : MainResult :=
  if e.argc ≠ 2 then
    ⟨1, [], usageMsg, false, false, false, false⟩
  else if e.openOk = false then
    ⟨1, [], openFailMsg e.filename, false, false, false, false⟩
  else if e.allocOk = false then
    ⟨1, [], allocFailMsg, true, true, false, false⟩
  else if e.bytesRead ≠ e.size then
    ⟨1, [], readFailMsg e.filename, true, true, true, true⟩
  else
    let r := interpret (e.content ++ [nulChar])
    ⟨0, r.1, r.2, true, true, true, true⟩

/-- Mirrors the control flow of `interpTokens`: `true` exactly when the
scan reaches a `print` token in command position with no token after it
(the one situation in which main.c line 21 runs). -/
def endsDangling : List (List Char) → Bool
  | [] => false
  | [t] => t = printTok
  | t :: arg :: rest =>
    if t = printTok then endsDangling rest else endsDangling (arg :: rest)

/-! ### Helper lemmas -/

lemma interpTokens_cons_ne (t : List Char) (ts : List (List Char))
    (ht : ¬ t = printTok) : interpTokens (t :: ts) = interpTokens ts := by
  cases ts with
  | nil => simp [interpTokens, ht]
  | cons a rest => simp [interpTokens, ht]

lemma interpTokens_print_cons (x : List Char) (rest : List (List Char)) :
    interpTokens (printTok :: x :: rest) =
      (printedLine x ++ (interpTokens rest).1, (interpTokens rest).2) := by
  simp [interpTokens]

lemma interpTokens_no_print : ∀ (ts : List (List Char)), printTok ∉ ts →
    interpTokens ts = ([], [])
  | [], _ => rfl
  | t :: ts, h => by
    have ht : ¬ t = printTok := fun e => h (e ▸ List.mem_cons_self t ts)
    rw [interpTokens_cons_ne t ts ht]
    exact interpTokens_no_print ts fun m => h (List.mem_cons_of_mem _ m)

lemma interpTokens_skip : ∀ (a ts : List (List Char)), printTok ∉ a →
    interpTokens (a ++ ts) = interpTokens ts
  | [], _, _ => rfl
  | t :: a, ts, h => by
    have ht : ¬ t = printTok := fun e => h (e ▸ List.mem_cons_self t a)
    rw [List.cons_append, interpTokens_cons_ne t (a ++ ts) ht]
    exact interpTokens_skip a ts fun m => h (List.mem_cons_of_mem _ m)

lemma endsDangling_cons_ne (t : List Char) (ts : List (List Char))
    (ht : ¬ t = printTok) : endsDangling (t :: ts) = endsDangling ts := by
  cases ts with
  | nil => simp [endsDangling, ht]
  | cons a rest => simp [endsDangling, ht]

lemma interpTokens_dangling : ∀ (ts : List (List Char)), endsDangling ts = true →
    (interpTokens ts).2 = missingArgMsg
  | [], h => by simp [endsDangling] at h
  | [t], h => by
    have ht : t = printTok := by simpa [endsDangling] using h
    simp [interpTokens, ht]
  | t :: a :: rest, h => by
    by_cases ht : t = printTok
    · have h' : endsDangling rest = true := by simpa [endsDangling, ht] using h
      simp [interpTokens, ht, interpTokens_dangling rest h']
    · have h' : endsDangling (a :: rest) = true := by
        rwa [endsDangling_cons_ne t (a :: rest) ht] at h
      rw [interpTokens_cons_ne t (a :: rest) ht]
      exact interpTokens_dangling (a :: rest) h'

lemma cstr_append_nul_cons : ∀ (l t : List Char), cstr (l ++ nulChar :: t) = cstr l
  | [], t => by simp [cstr, List.takeWhile_cons]
  | c :: cs, t => by
    by_cases hc : c = nulChar
    · simp [cstr, List.takeWhile_cons, hc]
    · simpa [cstr, List.takeWhile_cons, hc] using cstr_append_nul_cons cs t

lemma cstr_of_not_mem : ∀ (l : List Char), nulChar ∉ l → cstr l = l
  | [], _ => rfl
  | c :: cs, h => by
    have hc : ¬ c = nulChar := fun e => h (e ▸ List.mem_cons_self c cs)
    simpa [cstr, List.takeWhile_cons, hc] using
      cstr_of_not_mem cs fun m => h (List.mem_cons_of_mem _ m)

lemma nul_not_mem_cstr : ∀ (l : List Char), nulChar ∉ cstr l
  | [] => by simp [cstr]
  | c :: cs => by
    by_cases hc : c = nulChar
    · simp [cstr, List.takeWhile_cons, hc]
    · simp only [cstr, List.takeWhile_cons] at *
      simp only [bne_iff_ne, ne_eq, hc, not_false_eq_true, if_true, List.mem_cons]
      push_neg
      exact ⟨fun e => hc e.symm, nul_not_mem_cstr cs⟩

lemma cstr_cstr (l : List Char) : cstr (cstr l) = cstr l :=
  cstr_of_not_mem _ (nul_not_mem_cstr l)

lemma take_takeWhile_comm (p : Char → Bool) : ∀ (l : List Char) (n : Nat),
    (l.takeWhile p).take n = (l.take n).takeWhile p
  | [], n => by simp
  | c :: cs, 0 => by simp
  | c :: cs, n + 1 => by
    by_cases h : p c
    · simp [List.takeWhile_cons, h, take_takeWhile_comm p cs n]
    · simp [List.takeWhile_cons, h]

lemma workingCopy_take (code : List Char) :
    workingCopy code = workingCopy (code.take (MAX_CODE_SIZE - 1)) := by
  simp only [workingCopy, cstr, take_takeWhile_comm, List.take_take, MAX_CODE_SIZE]
  simp [take_takeWhile_comm]

lemma workingCopy_append_nul (l : List Char) :
    workingCopy (l ++ [nulChar]) = workingCopy l := by
  simp only [workingCopy, cstr_append_nul_cons l []]

lemma set_eq_of_getElem? : ∀ (l : List Char) (n : Nat) (a : Char),
    l[n]? = some a → l.set n a = l
  | [], n, a, h => by simp at h
  | c :: cs, 0, a, h => by
    simp only [List.getElem?_cons_zero, Option.some.injEq] at h
    simp [h]
  | c :: cs, n + 1, a, h => by
    simp only [List.getElem?_cons_succ] at h
    simp [set_eq_of_getElem? cs n a h]

lemma set_append_cons : ∀ (l : List Char) (a : Char) (r : List Char) (b : Char),
    (l ++ a :: r).set l.length b = l ++ b :: r
  | [], _, _, _ => rfl
  | c :: cs, a, r, b => by simp [set_append_cons cs a r b]

lemma tokenizeAux_sub : ∀ (s acc t : List Char),
    t ∈ tokenizeAux s acc → ∃ u v, u ++ t ++ v = acc.reverse ++ s
  | [], acc, t, h => by
    by_cases ha : acc.isEmpty
    · simp [tokenizeAux, ha] at h
    · simp only [tokenizeAux, if_neg ha, List.mem_singleton] at h
      exact ⟨[], [], by simp [h]⟩
  | c :: cs, acc, t, h => by
    by_cases hd : isDelim c
    · by_cases ha : acc.isEmpty
      · have h' : t ∈ tokenizeAux cs [] := by simpa [tokenizeAux, hd, ha] using h
        obtain ⟨u, v, huv⟩ := tokenizeAux_sub cs [] t h'
        simp only [List.reverse_nil, List.nil_append] at huv
        exact ⟨acc.reverse ++ c :: u, v, by simp [huv]⟩
      · have h' : t = acc.reverse ∨ t ∈ tokenizeAux cs [] := by
          simpa [tokenizeAux, hd, ha] using h
        rcases h' with h' | h'
        · exact ⟨[], c :: cs, by simp [h']⟩
        · obtain ⟨u, v, huv⟩ := tokenizeAux_sub cs [] t h'
          simp only [List.reverse_nil, List.nil_append] at huv
          exact ⟨acc.reverse ++ c :: u, v, by simp [huv]⟩
    · have h' : t ∈ tokenizeAux cs (c :: acc) := by simpa [tokenizeAux, hd] using h
      obtain ⟨u, v, huv⟩ := tokenizeAux_sub cs (c :: acc) t h'
      refine ⟨u, v, ?_⟩
      rw [huv, List.reverse_cons, List.append_assoc]
      simp

lemma tokenize_sub (s t : List Char) (h : t ∈ tokenize s) :
    ∃ u v, u ++ t ++ v = s := by
  simpa using tokenizeAux_sub s [] t h

lemma nul_not_mem_workingCopy (code : List Char) : nulChar ∉ workingCopy code :=
  fun h => nul_not_mem_cstr code (List.take_subset _ _ h)

lemma workingCopy_length_le (code : List Char) :
    (workingCopy code).length ≤ MAX_CODE_SIZE - 1 := by
  simp [workingCopy, List.length_take]

lemma set_append_cons' (l : List Char) (a : Char) (r : List Char) (b : Char)
    (n : Nat) (h : l.length = n) : (l ++ a :: r).set n b = l ++ b :: r :=
  h ▸ set_append_cons l a r b

/-- Structure of the `code_copy` array after main.c lines 11-12: the
(NUL-free) working text, then a NUL terminator, then NUL padding up to
the full 1000 bytes. -/
lemma codeCopyArray_eq (code : List Char) :
    codeCopyArray code = workingCopy code ++ nulChar ::
      List.replicate (MAX_CODE_SIZE - 1 - (workingCopy code).length) nulChar := by
  have e9 : MAX_CODE_SIZE - 1 = 999 := rfl
  unfold codeCopyArray strncpyBuf workingCopy MAX_CODE_SIZE
  rw [show (1000 : Nat) - 1 = 999 from rfl]
  by_cases hA : (cstr code).length < 1000
  · have htk : (cstr code).take 1000 = cstr code := List.take_of_length_le (by omega)
    have htk9 : (cstr code).take 999 = cstr code := List.take_of_length_le (by omega)
    rw [htk, htk9]
    have hget : ((cstr code) ++
        List.replicate (1000 - (cstr code).length) nulChar)[(999 : Nat)]? =
        some nulChar := by
      rw [List.getElem?_append_right (by omega), List.getElem?_replicate,
        if_pos (by omega)]
    rw [set_eq_of_getElem? _ _ _ hget,
      show 1000 - (cstr code).length = (999 - (cstr code).length) + 1 by omega,
      List.replicate_succ]
  · push_neg at hA
    have h999 : 999 < (cstr code).length := by omega
    rw [show 1000 - (cstr code).length = 0 by omega]
    rw [show (1000 : Nat) = 999 + 1 from rfl, List.take_succ,
      List.getElem?_eq_getElem h999]
    simp only [List.replicate, List.append_nil, Option.toList_some]
    have hlen : ((cstr code).take 999).length = 999 := by
      simp [List.length_take]; omega
    rw [set_append_cons' _ _ _ _ _ hlen, hlen]
    simp

lemma codeCopyArray_length (code : List Char) :
    (codeCopyArray code).length = MAX_CODE_SIZE := by
  rw [codeCopyArray_eq]
  have := workingCopy_length_le code
  simp only [List.length_append, List.length_cons, List.length_replicate,
    MAX_CODE_SIZE] at *
  omega

lemma nul_mem_codeCopyArray (code : List Char) : nulChar ∈ codeCopyArray code := by
  rw [codeCopyArray_eq]
  simp

lemma cstr_codeCopyArray (code : List Char) :
    cstr (codeCopyArray code) = workingCopy code := by
  rw [codeCopyArray_eq, cstr_append_nul_cons]
  exact cstr_of_not_mem _ (nul_not_mem_workingCopy code)

/-! ### Claim theorems -/

/-- Claim C1: for every input buffer whose token sequence contains the
token `print` immediately followed by a single token `x`, with no other
occurrence of `print` anywhere, `interpret` writes exactly the line
`Printed: x\n` to standard output and nothing else on standard output
(and nothing at all to standard error). -/
theorem claim1_print_single_output (code x : List Char)
    (a b : List (List Char))
    (htok : tokenize (workingCopy code) = a ++ printTok :: x :: b)
    (ha : printTok ∉ a) (hb : printTok ∉ b) (hx : x ≠ printTok) :
    interpret code = (printedLine x, []) := by
  unfold interpret
  rw [htok, interpTokens_skip a _ ha, interpTokens_print_cons,
    interpTokens_no_print b hb]
  simp

theorem claim1_witness :
    tokenize (workingCopy ("print hello".toList)) =
      [] ++ printTok :: "hello".toList :: [] ∧
    printTok ∉ ([] : List (List Char)) ∧
    "hello".toList ≠ printTok ∧
    interpret ("print hello".toList) = (printedLine ("hello".toList), []) :=
  ⟨by decide, by decide, by decide,
    claim1_print_single_output ("print hello".toList) ("hello".toList) [] []
      (by decide) (by decide) (by decide) (by decide)⟩

/-- Claim C2 is false as stated: the input `print print` has last token
`print` with no following token, yet the final `print` is consumed as
the argument of the first one, so the missing-argument message is never
written to standard error (which stays empty) and standard output gets
`Printed: print\n`. -/
theorem claim2_counterexample :
    (interpret ("print print".toList)).2 = [] ∧
    (interpret ("print print".toList)).2 ≠ missingArgMsg ∧
    (interpret ("print print".toList)).1 = printedLine printTok := by
  refine ⟨by decide, by decide, by decide⟩

/-- Claim C2 (amended): for every successfully loaded input whose token
scan reaches a final `print` in command position with no token after it
(rather than consuming that `print` as the argument of a preceding
`print`), the program writes exactly `Error: Missing argument for
print\n` to standard error, scanning terminates, and the process still
exits with code 0. -/
theorem claim2_dangling_print_error (e : Env) (h2 : e.argc = 2)
    (ho : e.openOk = true) (hal : e.allocOk = true) (hr : e.bytesRead = e.size)
    (hd : endsDangling (tokenize (workingCopy e.content)) = true) :
    (main e).exitCode = 0 ∧ (main e).stderr = missingArgMsg := by
  have hm : main e = ⟨0, (interpret (e.content ++ [nulChar])).1,
      (interpret (e.content ++ [nulChar])).2, true, true, true, true⟩ := by
    simp [main, h2, ho, hal, hr]
  rw [hm]
  refine ⟨rfl, ?_⟩
  show (interpret (e.content ++ [nulChar])).2 = missingArgMsg
  unfold interpret
  rw [workingCopy_append_nul]
  exact interpTokens_dangling _ hd

theorem claim2_witness :
    (main ⟨2, "f".toList, true, true, 5, 5, "print".toList⟩).exitCode = 0 ∧
    (main ⟨2, "f".toList, true, true, 5, 5, "print".toList⟩).stderr =
      missingArgMsg :=
  claim2_dangling_print_error ⟨2, "f".toList, true, true, 5, 5, "print".toList⟩
    rfl rfl rfl rfl (by decide)

/-- Claim C3: the argument of a `print` command is exactly the single
token immediately following it, consumed exactly once and never itself
re-interpreted as a command keyword — whatever token `x` is (even
`print`), the scan prints it and resumes after it; concretely,
`print print print hello` yields exactly `Printed: print\n` followed by
`Printed: hello\n` on standard output. -/
theorem claim3_argument_consumed_once :
    (∀ (x : List Char) (rest : List (List Char)),
      interpTokens (printTok :: x :: rest) =
        (printedLine x ++ (interpTokens rest).1, (interpTokens rest).2)) ∧
    interpret ("print print print hello".toList) =
      (printedLine printTok ++ printedLine ("hello".toList), []) :=
  ⟨interpTokens_print_cons, by decide⟩

/-- Claim C4: for every input buffer of length at least 1000,
`interpret` behaves exactly as it does on the buffer's first 999
characters — everything beyond that boundary is silently ignored, and
truncation changes neither output stream (so it is never reported as an
error). -/
theorem claim4_truncation (code : List Char) (h : 1000 ≤ code.length) :
    interpret code = interpret (code.take 999) ∧
    workingCopy code = workingCopy (code.take 999) := by
  have hw : workingCopy (code.take 999) = workingCopy code := by
    unfold workingCopy cstr
    rw [show MAX_CODE_SIZE - 1 = 999 from rfl, ← take_takeWhile_comm,
      List.take_take, Nat.min_self]
  exact ⟨by unfold interpret; rw [hw], hw.symm⟩

theorem claim4_witness :
    1000 ≤ (List.replicate 1000 'a').length ∧
    interpret (List.replicate 1000 'a') =
      interpret ((List.replicate 1000 'a').take 999) :=
  ⟨by rw [List.length_replicate],
    (claim4_truncation (List.replicate 1000 'a')
      (by rw [List.length_replicate])).1⟩

/-- Claim C5: for every successful run whose loaded content has no token
equal to `print`, the program writes nothing to standard output, nothing
to standard error, and exits with code 0 (releasing its resources); the
empty file is the witness instance. -/
theorem claim5_no_print_silent (e : Env) (h2 : e.argc = 2)
    (ho : e.openOk = true) (hal : e.allocOk = true) (hr : e.bytesRead = e.size)
    (hp : printTok ∉ tokenize (workingCopy e.content)) :
    main e = ⟨0, [], [], true, true, true, true⟩ := by
  have hint : interpret (e.content ++ [nulChar]) = ([], []) := by
    unfold interpret
    rw [workingCopy_append_nul]
    exact interpTokens_no_print _ hp
  simp [main, h2, ho, hal, hr, hint]

theorem claim5_witness :
    main ⟨2, "f".toList, true, true, 0, 0, []⟩ =
      ⟨0, [], [], true, true, true, true⟩ :=
  claim5_no_print_silent ⟨2, "f".toList, true, true, 0, 0, []⟩
    rfl rfl rfl rfl (by decide)

/-- Claim C6: for every invocation whose argument count differs from
exactly one file path (`argc ≠ 2`), the program writes the usage message
to standard error and exits with code 1, with no file ever opened and
nothing written to standard output. -/
theorem claim6_usage_error (e : Env) (h : e.argc ≠ 2) :
    main e = ⟨1, [], usageMsg, false, false, false, false⟩ := by
  simp [main, h]

theorem claim6_witness :
    main ⟨1, "f".toList, true, true, 0, 0, []⟩ =
      ⟨1, [], usageMsg, false, false, false, false⟩ :=
  claim6_usage_error ⟨1, "f".toList, true, true, 0, 0, []⟩ (by decide)

/-- Claim C7: on every failing load path — the file cannot be opened,
the allocation fails, or fewer bytes are read than the measured size —
the program writes the specific descriptive message of that failure to
standard error, writes nothing to standard output, exits with code 1,
and releases every resource already acquired (the file is closed
whenever it was opened, the buffer freed whenever it was allocated). -/
theorem claim7_load_failure (e : Env) (h2 : e.argc = 2)
    (h : e.openOk = false ∨ (e.openOk = true ∧ e.allocOk = false) ∨
      (e.openOk = true ∧ e.allocOk = true ∧ e.bytesRead ≠ e.size)) :
    (main e).exitCode = 1 ∧ (main e).stdout = [] ∧
    ((main e).fileOpened = true → (main e).fileClosed = true) ∧
    ((main e).bufAllocated = true → (main e).bufFreed = true) ∧
    (main e).stderr = (if e.openOk = false then openFailMsg e.filename
      else if e.allocOk = false then allocFailMsg
      else readFailMsg e.filename) := by
  rcases h with h | ⟨ho, hal⟩ | ⟨ho, hal, hrd⟩
  · simp [main, h2, h]
  · simp [main, h2, ho, hal]
  · simp [main, h2, ho, hal, hrd]

theorem claim7_witness :
    (main ⟨2, "f".toList, true, true, 5, 3, []⟩).exitCode = 1 ∧
    (main ⟨2, "f".toList, true, true, 5, 3, []⟩).stdout = [] ∧
    ((main ⟨2, "f".toList, true, true, 5, 3, []⟩).fileOpened = true →
      (main ⟨2, "f".toList, true, true, 5, 3, []⟩).fileClosed = true) ∧
    ((main ⟨2, "f".toList, true, true, 5, 3, []⟩).bufAllocated = true →
      (main ⟨2, "f".toList, true, true, 5, 3, []⟩).bufFreed = true) ∧
    (main ⟨2, "f".toList, true, true, 5, 3, []⟩).stderr =
      readFailMsg ("f".toList) := by
  have h := claim7_load_failure ⟨2, "f".toList, true, true, 5, 3, []⟩ rfl
    (Or.inr (Or.inr ⟨rfl, rfl, by decide⟩))
  simpa using h

/-- Claim C8: the working copy built by `interpret` is always
null-terminated — the 1000-byte `code_copy` array reads as a C string
that is exactly the NUL-free working text of at most 999 characters,
even when the source meets or exceeds the capacity — and token scanning
never reads past that terminator: every token produced is a contiguous
substring of the working text. -/
theorem claim8_working_copy_safe (code : List Char) :
    (codeCopyArray code).length = MAX_CODE_SIZE ∧
    nulChar ∈ codeCopyArray code ∧
    cstr (codeCopyArray code) = workingCopy code ∧
    (workingCopy code).length ≤ MAX_CODE_SIZE - 1 ∧
    nulChar ∉ workingCopy code ∧
    (∀ t ∈ tokenize (workingCopy code), ∃ u v, u ++ t ++ v = workingCopy code) :=
  ⟨codeCopyArray_length code, nul_mem_codeCopyArray code,
    cstr_codeCopyArray code, workingCopy_length_le code,
    nul_not_mem_workingCopy code, fun t ht => tokenize_sub _ t ht⟩

/-- Claim C9: a NUL byte within the first 999 characters of the input
ends the input for the interpreter — on `pre ++ NUL ++ post` it behaves
exactly as on `pre` alone, so the tokens of `post` are never scanned,
even though the loader read and null-terminated the full content. -/
theorem claim9_nul_truncates (pre post : List Char)
    (hn : nulChar ∉ pre) (hlen : pre.length < MAX_CODE_SIZE - 1) :
    interpret (pre ++ nulChar :: post) = interpret pre ∧
    workingCopy (pre ++ nulChar :: post) = pre := by
  have hw : workingCopy (pre ++ nulChar :: post) = pre := by
    unfold workingCopy
    rw [cstr_append_nul_cons, cstr_of_not_mem pre hn]
    exact List.take_of_length_le (by omega)
  have hw2 : workingCopy pre = pre := by
    unfold workingCopy
    rw [cstr_of_not_mem pre hn]
    exact List.take_of_length_le (by omega)
  exact ⟨by unfold interpret; rw [hw, hw2], hw⟩

theorem claim9_witness :
    nulChar ∉ "print hi".toList ∧
    ("print hi".toList).length < MAX_CODE_SIZE - 1 ∧
    interpret ("print hi".toList ++ nulChar :: " print bye".toList) =
      interpret ("print hi".toList) :=
  ⟨by decide, by decide,
    (claim9_nul_truncates ("print hi".toList) (" print bye".toList)
      (by decide) (by decide)).1⟩

/-- Claim C10: `interpret` is deterministic (it is a function) and its
observable output depends only on the first 999 characters of the input
buffer: any two buffers agreeing on their first 999 characters produce
identical standard-output and standard-error text. -/
theorem claim10_output_depends_on_first_999 (c1 c2 : List Char)
    (h : c1.take 999 = c2.take 999) :
    interpret c1 = interpret c2 := by
  have hw : workingCopy c1 = workingCopy c2 := by
    unfold workingCopy cstr
    rw [show MAX_CODE_SIZE - 1 = 999 from rfl, take_takeWhile_comm,
      take_takeWhile_comm, h]
  unfold interpret
  rw [hw]

theorem claim10_witness :
    (List.replicate 1000 'a').take 999 =
      (List.replicate 1000 'a' ++ "print b".toList).take 999 ∧
    interpret (List.replicate 1000 'a') =
      interpret (List.replicate 1000 'a' ++ "print b".toList) := by
  have h : (List.replicate 1000 'a').take 999 =
      (List.replicate 1000 'a' ++ "print b".toList).take 999 := by
    rw [List.take_append_of_le_length (by rw [List.length_replicate]; omega)]
  exact ⟨h, claim10_output_depends_on_first_999 _ _ h⟩

end CInterp
